import Mathlib

/-!
Verification of the ProDy atom-selection engine (`lib/prody/atomic/select.py`)
against its natural-language specification.

The Python source is shallowly embedded: numpy boolean arrays become
`List Bool`, numpy float64 arrays become `List ℚ` (exact rationals stand in
for IEEE doubles; none of the verified properties depends on rounding),
fallible code returns `Except SelErr`.  External collaborators that are part
of the repository but outside the provided sources (the pyparsing grammar
engine, the KD-tree, the reserved-keyword table, the reference atom group
used for macro validation) are modelled from the specification and marked as
such in their doc comments.
-/

namespace ProdySel

/-- A numpy boolean array: the membership-mask representation used throughout
`select.py`. -/
abbrev Mask := List Bool

/-- Errors surfaced by the selection engine: `TypeError` for malformed keyword
arguments and `SelectionError` for parse/semantic failures.  Only the message
text is carried; source-location pointers are not modelled. -/
inductive SelErr where
  | typeError (msg : String)
  | sel (msg : String)
deriving DecidableEq, Repr

/-- A per-entity attribute array: numeric (float/int) or string typed,
mirroring the two dtype families `Select` distinguishes. -/
inductive AttrArr where
  | nums (a : List ℚ)
  | strs (a : List String)
deriving DecidableEq, Repr

/-- A coordinate triple (one row of the N×3 coordinate array). -/
abbrev Vec3 := ℚ × ℚ × ℚ

/-- Zero coordinate, used as the out-of-range default for list lookups. -/
def z3 : Vec3 := (0, 0, 0)

/-- Read one entry of a mask; out-of-range reads default to `false` (numpy
indexing in the source never goes out of range on these paths). -/
def maskGet (m : Mask) (j : Nat) : Bool := m.getD j false

/-- `torf.nonzero()[0]`: the indices of the true entries of a mask. -/
def nonzero (m : Mask) : List Nat :=
  (List.range m.length).filter (fun j => maskGet m j)

/-- Fancy-index assignment `m[idxs] = b` on a numpy boolean array. -/
def setAt (m : Mask) (idxs : List Nat) (b : Bool) : Mask :=
  (List.range m.length).map (fun j => if j ∈ idxs then b else maskGet m j)

/-- Python `str.strip()`. -/
def pyStrip (s : String) : String :=
  String.mk (((s.data.dropWhile Char.isWhitespace).reverse.dropWhile
      Char.isWhitespace).reverse)

/-- Helper for `pySplitWs`: split a character list on whitespace runs. -/
def wsSplitAux : List Char → List Char → List (List Char)
  | acc, [] => [acc.reverse]
  | acc, c :: rest =>
    if c.isWhitespace then acc.reverse :: wsSplitAux [] rest
    else wsSplitAux (c :: acc) rest

/-- Python `str.split()` with no argument: split on whitespace runs and drop
empty pieces. -/
def pySplitWs (s : String) : List String :=
  ((wsSplitAux [] s.data).filter (fun p => p ≠ [])).map String.mk

/-- Python `str.isalnum()` (ASCII fragment, which is all the engine feeds it). -/
def pyIsAlnum (s : String) : Bool :=
  s.data ≠ [] && s.data.all Char.isAlphanum

/-- Python `str.isalpha()` (ASCII fragment). -/
def pyIsAlpha (s : String) : Bool :=
  s.data ≠ [] && s.data.all Char.isAlpha

/-- Python `str.islower()` (ASCII fragment): at least one cased character and
no uppercase one. -/
def pyIsLower (s : String) : Bool :=
  s.data.any Char.isAlpha && s.data.all (fun c => !c.isUpper)

/-- Python `needle in hay` / `hay.find(needle) > -1` on strings. -/
def strFind (hay needle : String) : Bool :=
  hay.data.tails.any (fun t => needle.data.isPrefixOf t)

/-- Accumulate a run of decimal digits into a value, returning the rest. -/
def readDigitsGo (acc : Nat) : List Char → Nat × List Char
  | [] => (acc, [])
  | d :: ds =>
    if d.isDigit then readDigitsGo (acc * 10 + (d.toNat - '0'.toNat)) ds
    else (acc, d :: ds)

/-- Parse an unsigned run of decimal digits (at least one). -/
def readDigits : List Char → Option (Nat × List Char)
  | [] => none
  | c :: rest =>
    if c.isDigit then some (readDigitsGo (c.toNat - '0'.toNat) rest)
    else none

/-- Python `float(token)` on a string: optional sign, then digits with an
optional fraction and exponent; `none` models the raised `ValueError`.
(Specials such as `nan`/`inf` and surrounding whitespace are not modelled;
the engine only feeds it bare selection words.) -/
def pyFloat? (s : String) : Option ℚ :=
  let core : List Char → Option ℚ := fun cs =>
    -- integer part (may be empty when a fraction follows, as in ".5")
    let (ipart, rest, hadInt) :=
      match readDigits cs with
      | some (n, r) => ((n : ℚ), r, true)
      | none => (0, cs, false)
    let (frac, rest2, hadFrac) :=
      match rest with
      | '.' :: r =>
        match readDigits r with
        | some (n, r2) =>
          let den : ℚ := (10 : ℚ) ^ (r.length - r2.length)
          (((n : ℚ) / den), r2, true)
        | none => (0, r, hadInt)  -- "1." is a valid Python float
      | _ => (0, rest, hadInt)
    if !(hadInt || hadFrac) then none
    else
      match rest2 with
      | [] => some (ipart + frac)
      | 'e' :: r | 'E' :: r =>
        let (esign, r2) :=
          match r with
          | '-' :: rr => ((-1 : Int), rr)
          | '+' :: rr => ((1 : Int), rr)
          | _ => ((1 : Int), r)
        match readDigits r2 with
        | some (n, []) => some ((ipart + frac) * (10 : ℚ) ^ (esign * (n : Int)))
        | _ => none
      | _ => none
  match s.data with
  | '-' :: cs => (core cs).map (fun q => -q)
  | '+' :: cs => core cs
  | cs => core cs

/-- Python `int(token)` on a string of decimal digits with optional sign;
`none` models the raised `ValueError`/`TypeError`. -/
def pyInt? (s : String) : Option Int :=
  let core : List Char → Option Int := fun cs =>
    match readDigits cs with
    | some (n, []) => some (n : Int)
    | _ => none
  match s.data with
  | '-' :: cs => (core cs).map (fun n => -n)
  | '+' :: cs => core cs
  | cs => core cs

/-! ### The macro registry (`MACROS`, `evalMacros`, `defSelectionMacro`) -/

/-- The process-wide macro table `MACROS`, modelled as an association list in
dictionary iteration order. -/
abbrev MacroTable := List (String × String)

/-- Characters of the regular-expression class in the pattern
`'[( )]' + key + '[( )]'` built by `evalMacros`. -/
def isMacroDelim (c : Char) : Bool := c = '(' || c = ' ' || c = ')'

/-- Try to match `key` followed by one delimiter character at the head of the
input; on success return the remainder after the trailing delimiter. -/
def matchKeyAfter (key : List Char) (s : List Char) : Option (List Char) :=
  if key.isPrefixOf s then
    match s.drop key.length with
    | d :: rest => if isMacroDelim d then some rest else none
    | [] => none
  else none

/-- Prepend a character to the first (current) piece of a split result. -/
def consPiece (c : Char) : List (List Char) → List (List Char)
  | [] => [[c]]
  | p :: ps => (c :: p) :: ps

/-- `re.split('[( )]' + key + '[( )]', s)`: leftmost non-overlapping matches
of delimiter–key–delimiter, with both delimiter characters consumed by the
match.  `fuel` bounds the scan (callers pass the input length, which always
suffices since each step consumes at least one character). -/
def reSplitKey (key : List Char) : Nat → List Char → List (List Char)
  | _, [] => [[]]
  | 0, s => [s]
  | fuel + 1, c :: rest =>
    if isMacroDelim c then
      match matchKeyAfter key rest with
      | some rest2 => [] :: reSplitKey key fuel rest2
      | none => consPiece c (reSplitKey key fuel rest)
    else consPiece c (reSplitKey key fuel rest)

/-- Python `sep.join(pieces)`. -/
def joinPieces (sep : List Char) : List (List Char) → List Char
  | [] => []
  | [p] => p
  | p :: ps => p ++ sep ++ joinPieces sep ps

/-- `evalMacros(selstr)`: pad the string with one space on each side, then for
each registry entry substitute every `[( )]key[( )]` match by the
parenthesized body (one pass per entry, not recursive), and finally strip the
first and last character. -/
def evalMacros (macros : MacroTable) (selstr : String) : String :=
  if macros.isEmpty then selstr
  else
    let padded := (' ' :: selstr.data) ++ [' ']
    let expanded := macros.foldl
      (fun cur kv =>
        joinPieces ((" (".data ++ kv.2.data) ++ ") ".data)
          (reSplitKey kv.1.data cur.length cur))
      padded
    String.mk (expanded.drop 1).dropLast

/-- `MACROS[name] = selstr`: overwrite an existing entry or append a new one. -/
def macroStore (macros : MacroTable) (name selstr : String) : MacroTable :=
  if macros.any (fun kv => kv.1 == name) then
    macros.map (fun kv => if kv.1 == name then (kv.1, selstr) else kv)
  else macros ++ [(name, selstr)]

/-- The externally observable outcome of `defSelectionMacro`: a raised
`ValueError`, a swallowed validation failure (warning logged, registry
untouched), or a successful registration (registry updated and saved). -/
inductive MacroDefOutcome where
  | valueError (msg : String)
  | notRegistered
  | registered
deriving DecidableEq, Repr

/-- `defSelectionMacro(name, selstr)`.  The `isinstance(..., str)` type check
is enforced by Lean's types.  `isReserved` is the reserved-keyword predicate
and `trialSelect` the trial evaluation `ATOMGROUP.select(selstr)` against the
reference atom group; both live outside the provided sources and are passed
in abstractly.  A `SelectionError` from the trial is swallowed into a warning
and the macro is not stored; otherwise the macro is stored and settings are
saved. -/
def defSelectionMacro (isReserved : String → Bool)
    (trialSelect : String → Except SelErr Unit)
    (macros : MacroTable) (name selstr : String) :
    MacroDefOutcome × MacroTable :=
  if isReserved name then
    (.valueError "is a reserved word and cannot be used as a macro name",
     macros)
  else if !(pyIsAlpha name && pyIsLower name) then
    (.valueError "macro names must be all lower case letters", macros)
  else
    match trialSelect selstr with
    | .error _ => (.notRegistered, macros)
    | .ok _ => (.registered, macroStore macros name selstr)

/-! ### The function and operator tables (`FUNCTIONS`, `OPERATORS`) -/

/-- The mathematical functions the evaluator can apply elementwise, as a
closed tag type (the numpy callables themselves are irrelevant to the
verified properties). -/
inductive FuncKind where
  | sqrt | sq | abs | floor | ceil | sin | cos | tan | asin | acos | atan
  | sinh | cosh | tanh | exp | log | log10
deriving DecidableEq, Repr

/-- The `FUNCTIONS` dictionary of `select.py`, key for key.  Note the key
`"tahn"` bound to the hyperbolic tangent, exactly as in the source. -/
def FUNCTIONS : List (String × FuncKind) :=
  [("sqrt", .sqrt), ("sq", .sq), ("abs", .abs), ("floor", .floor),
   ("ceil", .ceil), ("sin", .sin), ("cos", .cos), ("tan", .tan),
   ("asin", .asin), ("acos", .acos), ("atan", .atan), ("sinh", .sinh),
   ("cosh", .cosh), ("tahn", .tanh), ("exp", .exp), ("log", .log),
   ("log10", .log10)]

/-- `funcnames = list(FUNCTIONS)`: the keyword list from which the parser's
function-name alternation (`FUNCNAMES`) is assembled. -/
def funcnames : List String := FUNCTIONS.map (fun kv => kv.1)

/-- The keys of the `OPERATORS` dictionary of `select.py`. -/
def OPERATORS : List String :=
  ["+", "-", "*", "/", "%", ">", "<", ">=", "<=", "=", "==", "!="]

/-! ### The data accessor (the `Atomic` argument of `Select`) -/

/-- The read interface of an `Atomic` argument as `Select` consumes it: the
underlying `AtomGroup` size, the view's indices into it (`none` for the
`AtomGroup` itself, mirroring `Select._evalAtoms` setting `self._indices`),
flag and data-label lookup, the shared per-entity attribute store backing
both `getData` and the typed field getters, coordinates, and the bond map
(each atom's padded neighbor rows, `-1` entries as padding). -/
structure Atomic where
  agNumAtoms : Nat
  viewIndices : Option (List Nat) := none
  isFlagLabel : String → Bool := fun _ => false
  getFlags : String → Mask := fun _ => []
  isDataLabel : String → Bool := fun _ => false
  data : String → Option AttrArr := fun _ => none
  coords : Option (List Vec3) := none
  bmap : Option (List (List Int)) := none

/-- `atoms.numAtoms()`: the active entity count N of this evaluation call. -/
def Atomic.numAtoms (a : Atomic) : Nat :=
  match a.viewIndices with
  | none => a.agNumAtoms
  | some l => l.length

/-- The `FIELDS_SYNONYMS` dictionary of `select.py`. -/
def FIELDS_SYNONYMS : List (String × String) :=
  [("chid", "chain"), ("fragment", "fragindex"), ("resid", "resnum"),
   ("secstr", "secondary"), ("segname", "segment")]

/-- Modelled from the spec: the keys of `ATOMIC_FIELDS` (defined in the
repository's `fields.py`, which is outside the provided sources) — the
canonical named per-entity fields tabulated in the module documentation,
excluding the specially handled `x`/`y`/`z` and `index`. -/
def ATOMIC_FIELDS : List String :=
  ["name", "element", "type", "altloc", "resname", "chain", "icode",
   "segment", "secondary", "sequence", "serial", "resnum", "resindex",
   "chindex", "segindex", "fragindex", "beta", "occupancy", "charge",
   "mass", "radius"]

/-- Extract one coordinate column (`XYZ2INDEX`). -/
def coordCol (kw : String) (cs : List Vec3) : List ℚ :=
  if kw = "x" then cs.map (fun p => p.1)
  else if kw = "y" then cs.map (fun p => p.2.1)
  else cs.map (fun p => p.2.2)

/-- `Select._getData(keyword)`: coordinate columns (returning `(None, False)`
— here `.ok none` — when coordinates are unset), the `index` pseudo-field,
then the attribute store, with the error message distinguishing a recognized
field that is unset from an unknown label.  The per-call cache is omitted
(lookup is pure). -/
def _getData (atoms : Atomic) (keyword : String) :
    Except SelErr (Option AttrArr) :=
  if keyword = "x" ∨ keyword = "y" ∨ keyword = "z" then
    match atoms.coords with
    | none => .ok none
    | some cs => .ok (some (.nums (coordCol keyword cs)))
  else if keyword = "index" then
    match atoms.viewIndices with
    | some l => .ok (some (.nums (l.map (fun i => (i : ℚ)))))
    | none => .ok (some (.nums ((List.range atoms.agNumAtoms).map
        (fun i => (i : ℚ)))))
  else
    let canon := ((FIELDS_SYNONYMS.lookup keyword).getD keyword)
    if canon ∈ ATOMIC_FIELDS then
      match atoms.data canon with
      | none => .error (.sel "is not set")
      | some d => .ok (some d)
    else
      match atoms.data keyword with
      | none => .error (.sel "is not a valid data label")
      | some d => .ok (some d)

/-! ### Single-token evaluation (`Select._eval`, `len(tokens) == 1`) -/

/-- A keyword-argument value passed to `select`/`getBoolArray`: an atomic in
the same atom group (carrying its indices; dummy atoms are not modelled) or
some unrelated object. -/
inductive KwArg where
  | atomsArg (indices : List Nat)
  | otherArg

/-- A value produced while evaluating a token, mirroring the dynamic types
flowing through `Select._eval`: boolean/numeric/string arrays, a bare float,
or a passed-through string token. -/
inductive EvalVal where
  | boolArr (m : Mask)
  | numArr (a : List ℚ)
  | strArr (a : List String)
  | scalar (q : ℚ)
  | str (s : String)
deriving DecidableEq, Repr

/-- The `len(tokens) == 1`, string-token branch of `Select._eval` with
`subset=None`: the word is tried, in order, as `none`/`all`, a flag label, a
data label, a bound keyword argument, a float literal, and finally generic
data, with the two distinct failure messages of the source. -/
def _evalSingle (atoms : Atomic) (kwargs : List (String × KwArg))
    (token : String) : Except SelErr EvalVal :=
  if token = "none" then .ok (.boolArr (List.replicate atoms.numAtoms false))
  else if token = "all" then
    .ok (.boolArr (List.replicate atoms.numAtoms true))
  else if atoms.isFlagLabel token then .ok (.boolArr (atoms.getFlags token))
  else if atoms.isDataLabel token then
    match _getData atoms token with
    | .error e => .error e
    | .ok none => .error (.sel "is not a valid data label")
    | .ok (some (.nums a)) => .ok (.numArr a)
    | .ok (some (.strs a)) => .ok (.strArr a)
  else
    match kwargs.lookup token with
    | some (.atomsArg indices) =>
      -- the keyword argument is an atomic in the same atom group: build an
      -- AtomGroup-length mask from its indices and restrict it to the view
      let torf := setAt (List.replicate atoms.agNumAtoms false) indices true
      match atoms.viewIndices with
      | some l => .ok (.boolArr (l.map (fun i => maskGet torf i)))
      | none => .ok (.boolArr torf)
    | some .otherArg => .ok (.str token)
    | none =>
      match pyFloat? token with
      | some q => .ok (.scalar q)
      | none =>
        match _getData atoms token with
        | .ok (some (.nums a)) => .ok (.numArr a)
        | .ok (some (.strs a)) => .ok (.strArr a)
        | _ =>
          if token ∈ ATOMIC_FIELDS then .error (.sel "data is not found")
          else .error (.sel "could not be evaluated")

/-! ### `Select.getBoolArray` on single-word selection strings -/

/-- The keyword-argument validation loop at the top of
`Select.getBoolArray`: each key must be alphanumeric, and a reserved word
used as a key must not occur in the selection string. -/
def kwargsCheck (isReserved : String → Bool)
    (kwargs : List (String × KwArg)) (selstr : String) : Option SelErr :=
  kwargs.findSome? (fun kv =>
    if !pyIsAlnum kv.1 then
      some (.typeError "keywords must be all alpha numeric characters")
    else if isReserved kv.1 && strFind selstr kv.1 then
      some (.sel "is a reserved word and cannot be used as a keyword argument")
    else none)

/-- Modelled from the spec: the pyparsing-driven parse step of
`getBoolArray` restricted to a selection string consisting of one bare word
(the repository's vendored `pyparsing` module is outside the provided
sources).  Per the grammar, such a string tokenizes to a single `Word`
token, and the fused parse/evaluate reduction is the top-level parse action
`Select._default`, which for one token forwards to `Select._eval`. -/
def parseWordEval (atoms : Atomic) (kwargs : List (String × KwArg))
    (word : String) : Except SelErr EvalVal :=
  _evalSingle atoms kwargs word

/-- `Select.getBoolArray(atoms, selstr, **kwargs)` along single-word
selection strings: keyword-argument validation, then the fast path for a
single alphanumeric word that is not a macro name (`none`, `all`, flag
label, data label, error), and otherwise the parser path — which receives
the raw, unexpanded string and whose result must be a boolean array. -/
def getBoolArrayWord (isReserved : String → Bool) (macros : MacroTable)
    (atoms : Atomic) (kwargs : List (String × KwArg)) (selstr : String) :
    Except SelErr Mask :=
  match kwargsCheck isReserved kwargs selstr with
  | some e => .error e
  | none =>
    let s := pyStrip selstr
    if (pySplitWs s).length = 1 ∧ pyIsAlnum s = true ∧
        macros.any (fun kv => kv.1 == s) = false then
      if s = "none" then .ok (List.replicate atoms.numAtoms false)
      else if s = "all" then .ok (List.replicate atoms.numAtoms true)
      else if atoms.isFlagLabel s then .ok (atoms.getFlags s)
      else if atoms.isDataLabel s then
        .error (.sel "must be followed by values")
      else .error (.sel "is not a valid selection or user data label")
    else
      match parseWordEval atoms kwargs s with
      | .error e => .error e
      | .ok (.boolArr m) => .ok m
      | .ok _ => .error (.sel "selection did not reduce to a boolean array")

/-! ### Numeric operands (`Select._getNumeric`) and arithmetic
(`Select._binop`, `Select._func`) -/

/-- A resolved numeric operand: a numpy float array or a bare float. -/
inductive NumVal where
  | scalar (q : ℚ)
  | arr (a : List ℚ)
deriving DecidableEq, Repr

/-- `any(v == 0.0)` on a resolved operand. -/
def hasZero : NumVal → Bool
  | .scalar q => q == 0
  | .arr a => a.any (fun q => q == 0)

/-- A token reaching `_getNumeric`: an already-evaluated array, a compiled
regular expression (carrying only its pattern text), or a raw word. -/
inductive NTok where
  | boolArr (m : Mask)
  | numArr (a : List ℚ)
  | regex (pattern : String)
  | word (s : String)
deriving DecidableEq, Repr

/-- `Select._getNumeric(arg)`: boolean arrays and regular expressions are
rejected, coordinate axes fetch a coordinate column, data labels fetch the
(numeric) attribute array, `index` fetches the indices, and anything else
must parse as a float.  The `copy` flag only guards in-place numpy updates
and has no observable effect here. -/
def _getNumeric (atoms : Atomic) (arg : NTok) : Except SelErr NumVal :=
  match arg with
  | .boolArr _ =>
    .error (.sel "operands and function arguments must be numbers or numeric data labels")
  | .numArr a => .ok (.arr a)
  | .regex _ =>
    .error (.sel "operands and function arguments cannot be regular expressions")
  | .word s =>
    if s = "x" ∨ s = "y" ∨ s = "z" then
      match atoms.coords with
      | none => .error (.sel "coordinates are not set")
      | some cs => .ok (.arr (coordCol s cs))
    else
      match atoms.data s with
      | some (.strs _) => .error (.sel "is not a numeric data label")
      | some (.nums a) => .ok (.arr a)
      | none =>
        if s = "index" then
          match atoms.viewIndices with
          | some l => .ok (.arr (l.map (fun i => (i : ℚ))))
          | none => .ok (.arr ((List.range atoms.agNumAtoms).map
              (fun i => (i : ℚ))))
        else
          match pyFloat? s with
          | some q => .ok (.scalar q)
          | none => .error (.sel "is not a number or a numeric data label")

/-- `np.remainder` on exact rationals (`a - b * floor(a / b)`; the `b = 0`
case, `nan` in numpy, is mapped to `0` and is never reached by the verified
properties). -/
def npRemainder (a b : ℚ) : ℚ :=
  if b = 0 then 0 else a - b * (⌊a / b⌋ : ℤ)

/-- The arithmetic entries of `OPERATORS` as rational operations.  Division
is exact division (the evaluator errors out before ever dividing by zero). -/
def applyArith : String → Option (ℚ → ℚ → ℚ)
  | "+" => some (fun a b => a + b)
  | "-" => some (fun a b => a - b)
  | "*" => some (fun a b => a * b)
  | "/" => some (fun a b => a / b)
  | "%" => some npRemainder
  | _ => none

/-- numpy broadcasting of a binary operation over scalars and equal-length
arrays (the unequal-length case, a numpy error, is truncated by `zipWith`
and is never reached by the verified properties). -/
def liftOp (f : ℚ → ℚ → ℚ) : NumVal → NumVal → NumVal
  | .scalar a, .scalar b => .scalar (f a b)
  | .scalar a, .arr b => .arr (b.map (fun x => f a x))
  | .arr a, .scalar b => .arr (a.map (fun x => f x b))
  | .arr a, .arr b => .arr (a.zipWith f b)

/-- A token of the `* / %` and `+ -` precedence groups: an operator symbol
or an operand. -/
inductive BinTok where
  | op (s : String)
  | operand (t : NTok)

/-- The `while tokens:` loop of `Select._binop`: pop an operator (which must
be in `OPERATORS`), resolve the right operand, raise the zero-division error
for `/` with a zero anywhere in the right operand, and fold left.  Shapes the
pyparsing grammar cannot produce (a trailing operator, adjacent operands, a
comparison operator inside an arithmetic group) are mapped to errors. -/
def _binopLoop (atoms : Atomic) (left : NumVal) :
    List BinTok → Except SelErr NumVal
  | [] => .ok left
  | .op o :: .operand t :: rest =>
    if OPERATORS.contains o then
      match _getNumeric atoms t with
      | .error e => .error e
      | .ok right =>
        if o = "/" ∧ hasZero right = true then
          .error (.sel "zero division error")
        else
          match applyArith o with
          | some f => _binopLoop atoms (liftOp f left right) rest
          | none => .error (.sel "comparison operator in arithmetic group")
    else .error (.sel "invalid operator encountered")
  | _ => .error (.sel "invalid number of items")

/-- `Select._binop(tokens)`: the parity guard of the source, then resolve
the first operand and run the left-associative loop. -/
def _binop (atoms : Atomic) (tokens : List BinTok) : Except SelErr NumVal :=
  if tokens.length ≥ 3 ∧ tokens.length % 2 = 0 then
    .error (.sel "invalid number of items")
  else
    match tokens with
    | .operand t :: rest =>
      match _getNumeric atoms t with
      | .error e => .error e
      | .ok left => _binopLoop atoms left rest
    | _ => .error (.sel "invalid number of items")

/-- `Select._func(tokens)`: a function keyword must be applied to exactly
one numeric argument; the function itself is looked up in `FUNCTIONS` (the
grammar only produces keys of that table, so a failed lookup is unreachable
and mapped to an error). -/
def _func (atoms : Atomic) (tokens : List NTok) (name : String) :
    Except SelErr (FuncKind × NumVal) :=
  if tokens.length ≠ 1 then
    .error (.sel "accepts a single numeric argument")
  else
    match FUNCTIONS.lookup name with
    | none => .error (.sel "unknown function keyword")
    | some fk =>
      match _getNumeric atoms (tokens.getD 0 (.word "")) with
      | .error e => .error e
      | .ok v => .ok (fk, v)

/-! ### Distance-based selection (`Select._within`) -/

/-- Squared Euclidean distance between two coordinate rows. -/
def dist2 (p q : Vec3) : ℚ :=
  (p.1 - q.1) * (p.1 - q.1) + (p.2.1 - q.2.1) * (p.2.1 - q.2.1) +
    (p.2.2 - q.2.2) * (p.2.2 - q.2.2)

/-- Modelled from the spec: the KD-tree radius query (`prody.kdtree`,
outside the provided sources) — the indices of all points of `pts` within
distance `r` of `probe`, inclusively.  Distances are compared squared, which
agrees with `dist ≤ r` for the nonnegative radii the grammar produces. -/
def kdHits (pts : List Vec3) (r : ℚ) (probe : Vec3) : List Nat :=
  (List.range pts.length).filter
    (fun j => dist2 (pts.getD j z3) probe ≤ r * r)

/-- `Select._within` for a boolean-mask query set on an `AtomGroup`
(`self._indices is None`; the external-coordinate-array branch and the view
re-indexing are not exercised by the verified properties).  Strategy choice
and both branches follow the source: fewer than 20 query atoms probes each
query point against a tree over all atoms and ORs the hits in, forcing the
query set out afterwards for the `ex` variant; otherwise a tree is built
over only the query points, each complementary atom is probed against it,
and the query set is forced back in unless excluding. -/
def _within (exclude : Bool) (r : ℚ) (torfIn : Mask) (coords : List Vec3) :
    Mask :=
  let which := nonzero torfIn
  if which.length < 20 then
    let torf := which.foldl
      (fun t i => setAt t (kdHits coords r (coords.getD i z3)) true)
      (List.replicate coords.length false)
    if exclude then setAt torf which false else torf
  else
    let n := coords.length
    let check := nonzero (setAt (List.replicate n true) which false)
    let qpts := which.map (fun i => coords.getD i z3)
    -- `for i, xyz in enumerate(cxyz): if get_count(): append(i)` followed by
    -- `torf[check[select]] = True`, written directly over atom indices
    let hits := check.filter
      (fun j => !(kdHits qpts r (coords.getD j z3)).isEmpty)
    let torf := setAt (List.replicate n false) hits true
    if !exclude then setAt torf which true else torf

/-! ### Bonded-atom expansion (`Select._bondedto`) -/

/-- The hop loop of `Select._bondedto`: at each hop collect
`unique(bmap[which])`, drop the `-1` padding entries, mark the neighbors on
an AtomGroup-length mask, restrict to the view, then force the originating
atoms out (`ex` variant) or in, and continue from the new true set. -/
def bondedLoop (atoms : Atomic) (ex : Bool) (bmapEff : List (List Int)) :
    Nat → List Nat → Mask → Mask
  | 0, _, torf => torf
  | k + 1, which, _ =>
    let bonded := (((which.map (fun i => bmapEff.getD i [])).flatten.filter
      (fun x => 0 ≤ x)).map Int.toNat)
    let torf := setAt (List.replicate atoms.agNumAtoms false) bonded true
    let torf :=
      match atoms.viewIndices with
      | some l => l.map (fun i => maskGet torf i)
      | none => torf
    let torf := setAt torf which (if ex then false else true)
    bondedLoop atoms ex bmapEff k (nonzero torf) torf

/-- The part of `Select._bondedto` after the hop count is known: a missing
bond map is a hard error, an empty originating set short-circuits, and
otherwise the rows of the bond map are restricted to the view and the hop
loop runs. -/
def bondedCore (atoms : Atomic) (ex : Bool) (repeatN : Nat) (torf : Mask) :
    Except SelErr Mask :=
  match atoms.bmap with
  | none => .error (.sel "bonds are not set")
  | some bmap =>
    let which := nonzero torf
    if which.isEmpty then .ok torf
    else
      let bmapEff :=
        match atoms.viewIndices with
        | some l => l.map (fun i => bmap.getD i [])
        | none => bmap
      .ok (bondedLoop atoms ex bmapEff repeatN which torf)

/-- `Select._bondedto(tokens)`: `label` is the matched keyword phrase (for
example `["bonded", "to"]` or `["exbonded", "2", "to"]`) and `torf` the
evaluated argument mask.  `label[1] == 'to'` means one hop; otherwise the
hop count is parsed (a failure aborts; the source catches `TypeError` while
`int` raises `ValueError`, but either way evaluation stops there) and a
non-positive count yields an empty mask with a warning. -/
def _bondedto (atoms : Atomic) (label : List String) (torf : Mask) :
    Except SelErr Mask :=
  let token := label.getD 1 ""
  let ex := (label.getD 0 "").startsWith "ex"
  if token = "to" then bondedCore atoms ex 1 torf
  else
    match pyInt? token with
    | none => .error (.sel "could not be converted to an integer")
    | some n =>
      if n ≤ 0 then .ok (List.replicate atoms.numAtoms false)
      else bondedCore atoms ex n.toNat torf

/-! ### Index selection (`Select._index`) -/

/-- The `comparator` slot of a normalized range token: `'<='` from
`a to b` ranges, `'<'` from `a:b` ranges, or the numeric step of `a:b:c`. -/
inductive RangeComp where
  | le | lt | step (q : ℚ)
deriving DecidableEq, Repr

/-- A token following the `index` keyword: an already-numeric Python value,
a compiled regular expression, a normalized range, or a raw word converted
via `float()`. -/
inductive IdxTok where
  | pynum (q : ℚ)
  | regex (pattern : String)
  | rangeTok (start stop : ℚ) (comp : RangeComp)
  | numTok (s : String)
deriving DecidableEq, Repr

/-- `torf[i] = True` with Python integer indexing: negative indices wrap and
an out-of-range index raises an `IndexError` that the source catches and
ignores. -/
def setIntIdx (m : Mask) (i : Int) : Mask :=
  if 0 ≤ i ∧ i < (m.length : Int) then setAt m [i.toNat] true
  else if -(m.length : Int) ≤ i ∧ i < 0 then
    setAt m [(i + (m.length : Int)).toNat] true
  else m

/-- numpy slice assignment `torf[start:stop:step] = True` for the
nonnegative integral bounds the source's warnings steer users to
(length-preserving, which is the verified property). -/
def sliceTrue (m : Mask) (start stop step : ℚ) : Mask :=
  let a := ⌊start⌋
  let b := ⌊stop⌋
  let st := max 1 ⌊step⌋
  (List.range m.length).map (fun j =>
    if a ≤ Int.ofNat j ∧ Int.ofNat j < b ∧ (Int.ofNat j - a) % st = 0 then
      true
    else maskGet m j)

/-- `Select._index(tokens, subset)`: build an AtomGroup-length mask (the
source allocates `zeros(self._ag.numAtoms())`), mark each integer, range or
(skipped) regular-expression token on it, then attempt the view
re-indexing.  That re-indexing reads `self._atoms_getIndices` — `Select`
has no such attribute (a typo for `self._atoms._getIndices()`), so the
`AttributeError` is raised and caught and `torf = torf[indices]` never
runs: `atoms.viewIndices` is deliberately ignored below, exactly as the
source behaves. -/
def _index (atoms : Atomic) (tokens : List IdxTok)
    (subset : Option (List Nat)) : Except SelErr Mask :=
  let marked : Except SelErr Mask := tokens.foldlM
    (fun torf tok =>
      match tok with
      | .pynum _ => .error (.sel "it is a number, index")
      | .regex _ => .ok torf
      | .rangeTok start stop comp =>
        let bounds :=
          match comp with
          | .le => (stop + 1, (1 : ℚ))
          | .lt => (stop, (1 : ℚ))
          | .step q => (stop, q)
        .ok (sliceTrue torf start bounds.1 bounds.2)
      | .numTok s =>
        match pyFloat? s with
        | none =>
          .error (.sel "must be followed by integers and/or number ranges")
        | some v =>
          if v.den = 1 then .ok (setIntIdx torf v.num)
          else .ok torf)
    (List.replicate atoms.agNumAtoms false)
  match marked with
  | .error e => .error e
  | .ok torf =>
    match subset with
    | some ss => .ok (ss.map (fun j => maskGet torf j))
    | none => .ok torf

/-! ### `Select.getIndices` and `Select.select` -/

/-- `Select.getIndices`: the nonzero positions of the boolean mask the
evaluation produced (the single-word fast path returns the same nonzero
positions directly). -/
def getIndices (torf : Mask) : List Nat := nonzero torf

/-- The externally visible shape of `Select.select`'s return value: `None`
or a selection wrapping the matched indices. -/
inductive SelectReturn where
  | noneReturn
  | selectionOf (indices : List Nat)
deriving DecidableEq, Repr

/-- `Select.select`: evaluate to indices and return `None` when the string
matched no atoms, otherwise a `Selection` (or `AtomMap`) holding the
indices.  The wrapper type and the selection string stored on it do not
affect the none-versus-selection distinction and are omitted. -/
def select (torf : Mask) : SelectReturn :=
  let indices := getIndices torf
  if indices.length = 0 then .noneReturn
  else .selectionOf indices

/-! ### Concrete instances used in the statements below -/

/-- The alternating operator/operand token list the grammar produces for a
left-associative arithmetic chain, from its (operator, operand) pairs. -/
def pairTokens (ps : List (String × NTok)) : List BinTok :=
  (ps.map (fun p => [BinTok.op p.1, BinTok.operand p.2])).flatten

/-- A small concrete dataset: four atoms with a `protein` flag and a `name`
field, no user data named `cbeta`. -/
def Dex : Atomic :=
  { agNumAtoms := 4,
    isFlagLabel := fun s => s == "protein",
    getFlags := fun s =>
      if s == "protein" then [true, true, true, false] else [],
    isDataLabel := fun s => s == "name",
    data := fun s =>
      if s == "name" then some (.strs ["CB", "CA", "C", "O"]) else none }

/-- A five-atom AtomGroup viewed through a three-atom subset selection. -/
def Dview : Atomic := { agNumAtoms := 5, viewIndices := some [1, 2, 3] }

/-- A two-atom AtomGroup with coordinates set. -/
def Dxz : Atomic :=
  { agNumAtoms := 2, coords := some [(1, 0, 0), (2, 0, 0)] }

/-! ## Helper lemmas about the mask primitives -/

theorem getD_map_range {α : Type} (f : Nat → α) (n j : Nat) (d : α) :
    ((List.range n).map f).getD j d = if j < n then f j else d := by
  rw [List.getD_eq_getElem?_getD, List.getElem?_map]
  rcases lt_or_ge j n with h | h
  · rw [List.getElem?_range h]
    simp [h]
  · rw [List.getElem?_eq_none (by simpa using h)]
    simp [Nat.not_lt.2 h]

theorem maskGet_replicate (n j : Nat) (b : Bool) :
    maskGet (List.replicate n b) j = if j < n then b else false := by
  rw [maskGet, List.getD_eq_getElem?_getD, List.getElem?_replicate]
  split <;> simp

theorem maskGet_oob (m : Mask) (j : Nat) (h : m.length ≤ j) :
    maskGet m j = false := by
  rw [maskGet, List.getD_eq_getElem?_getD, List.getElem?_eq_none h]
  rfl

theorem length_setAt (m : Mask) (idxs : List Nat) (b : Bool) :
    (setAt m idxs b).length = m.length := by
  simp [setAt]

theorem maskGet_setAt (m : Mask) (idxs : List Nat) (b : Bool) (j : Nat) :
    maskGet (setAt m idxs b) j
      = if j < m.length then (if j ∈ idxs then b else maskGet m j)
        else false := by
  unfold setAt maskGet
  exact getD_map_range _ _ _ _

theorem mem_nonzero (m : Mask) (j : Nat) :
    j ∈ nonzero m ↔ j < m.length ∧ maskGet m j = true := by
  simp [nonzero, List.mem_filter, List.mem_range]

theorem mem_kdHits (pts : List Vec3) (r : ℚ) (probe : Vec3) (j : Nat) :
    j ∈ kdHits pts r probe
      ↔ j < pts.length ∧ dist2 (pts.getD j z3) probe ≤ r * r := by
  simp [kdHits, List.mem_filter, List.mem_range]

theorem kdHits_subset (pts : List Vec3) (r1 r2 : ℚ) (probe : Vec3)
    (h : r1 * r1 ≤ r2 * r2) {j : Nat} (hj : j ∈ kdHits pts r1 probe) :
    j ∈ kdHits pts r2 probe := by
  rw [mem_kdHits] at hj ⊢
  exact ⟨hj.1, le_trans hj.2 h⟩

theorem dist2_self (p : Vec3) : dist2 p p = 0 := by
  simp [dist2]

/-- The length of the small-strategy accumulation loop of `_within` equals
the length of its starting mask. -/
theorem length_withinFold (coords : List Vec3) (r : ℚ) :
    ∀ (which : List Nat) (m0 : Mask),
      (which.foldl
        (fun t i => setAt t (kdHits coords r (coords.getD i z3)) true)
        m0).length = m0.length := by
  intro which
  induction which with
  | nil => intro m0; rfl
  | cons i is ih =>
    intro m0
    rw [List.foldl_cons, ih, length_setAt]

/-- Pointwise value of the small-strategy accumulation loop of `_within`:
an entry is true when it started true or some probed query point reaches
it. -/
theorem maskGet_withinFold (coords : List Vec3) (r : ℚ) :
    ∀ (which : List Nat) (m0 : Mask), m0.length = coords.length → ∀ j,
    maskGet (which.foldl
        (fun t i => setAt t (kdHits coords r (coords.getD i z3)) true) m0) j
      = (maskGet m0 j ||
         which.any (fun i => decide (j ∈ kdHits coords r (coords.getD i z3)))) := by
  intro which
  induction which with
  | nil => intro m0 _ j; simp
  | cons i is ih =>
    intro m0 hm j
    rw [List.foldl_cons, ih _ (by rw [length_setAt, hm])]
    rw [maskGet_setAt]
    rcases lt_or_ge j m0.length with hj | hj
    · rw [if_pos hj]
      simp only [List.any_cons]
      by_cases hmem : j ∈ kdHits coords r (coords.getD i z3)
      · rw [if_pos hmem, decide_eq_true hmem]
        simp
      · rw [if_neg hmem, decide_eq_false hmem]
        simp
    · have h1 : maskGet m0 j = false := maskGet_oob _ _ hj
      have h2 : ∀ i', decide (j ∈ kdHits coords r (coords.getD i' z3)) = false := by
        intro i'
        simp only [decide_eq_false_iff_not]
        intro hc
        have := ((mem_kdHits _ _ _ _).1 hc).1
        omega
      have hany : ∀ l : List ℕ,
          (l.any fun i' => decide (j ∈ kdHits coords r (coords.getD i' z3)))
            = false := by
        intro l
        rw [List.any_eq_false]
        intro i' _
        rw [h2 i']
        exact Bool.false_ne_true
      rw [if_neg (by omega), h1, hany, hany]

/-- `_within`, small strategy, unfolded pointwise (non-excluding case). -/
theorem maskGet_within_small (r : ℚ) (torfIn : Mask) (coords : List Vec3)
    (hsmall : (nonzero torfIn).length < 20) (j : Nat) :
    maskGet (_within false r torfIn coords) j
      = (nonzero torfIn).any
          (fun i => decide (j ∈ kdHits coords r (coords.getD i z3))) := by
  simp only [_within]
  rw [if_pos hsmall]
  simp only [Bool.false_eq_true, if_false]
  rw [maskGet_withinFold _ _ _ _ (List.length_replicate _ _) j,
      maskGet_replicate]
  split <;> simp

/-- `_within`, small strategy, excluding case: the result is the
non-excluding accumulation with the query set forced out. -/
theorem maskGet_within_small_ex (r : ℚ) (torfIn : Mask) (coords : List Vec3)
    (hsmall : (nonzero torfIn).length < 20) (j : Nat)
    (hj : j ∈ nonzero torfIn) :
    maskGet (_within true r torfIn coords) j = false := by
  simp only [_within]
  rw [if_pos hsmall]
  simp only [if_true]
  rw [maskGet_setAt]
  split <;> simp [hj]

theorem lt_length_of_maskGet (m : Mask) (j : Nat) (h : maskGet m j = true) :
    j < m.length := by
  by_contra hc
  rw [maskGet_oob _ _ (by omega)] at h
  exact absurd h (by simp)

theorem kdHits_nonempty_mono (pts : List Vec3) (r1 r2 : ℚ) (probe : Vec3)
    (hrr : r1 * r1 ≤ r2 * r2) (h : (kdHits pts r1 probe).isEmpty = false) :
    (kdHits pts r2 probe).isEmpty = false := by
  have h1 : kdHits pts r1 probe ≠ [] := by
    intro hnil
    rw [hnil] at h
    exact absurd h (by simp)
  obtain ⟨x, hx⟩ := List.exists_mem_of_ne_nil _ h1
  have hx2 := kdHits_subset pts r1 r2 probe hrr hx
  cases hemp : (kdHits pts r2 probe).isEmpty
  · rfl
  · rw [List.isEmpty_iff.1 hemp] at hx2
    exact absurd hx2 (List.not_mem_nil x)

/-- Membership in the complementary (`check`) set of the large strategy. -/
theorem mem_within_check (which : List Nat) (n j : Nat) :
    j ∈ nonzero (setAt (List.replicate n true) which false)
      ↔ j < n ∧ j ∉ which := by
  rw [mem_nonzero, length_setAt, List.length_replicate, maskGet_setAt,
      List.length_replicate, maskGet_replicate]
  by_cases h1 : j < n <;> by_cases h2 : j ∈ which <;> simp [h1, h2]

/-- `_within`, large strategy, unfolded pointwise. -/
theorem maskGet_within_big_iff (ex : Bool) (r : ℚ) (torfIn : Mask)
    (coords : List Vec3) (hbig : ¬ (nonzero torfIn).length < 20) (j : Nat) :
    maskGet (_within ex r torfIn coords) j = true
      ↔ j < coords.length ∧
        ((ex = false ∧ j ∈ nonzero torfIn) ∨
         (j ∈ nonzero (setAt (List.replicate coords.length true)
             (nonzero torfIn) false) ∧
          (kdHits ((nonzero torfIn).map (fun i => coords.getD i z3)) r
             (coords.getD j z3)).isEmpty = false)) := by
  simp only [_within]
  rw [if_neg hbig]
  cases ex
  · rw [Bool.not_false, if_pos rfl, maskGet_setAt, length_setAt,
        List.length_replicate]
    by_cases h1 : j < coords.length
    · rw [if_pos h1]
      by_cases h2 : j ∈ nonzero torfIn
      · simp [h1, h2]
      · rw [if_neg h2, maskGet_setAt, List.length_replicate, if_pos h1,
            maskGet_replicate, if_pos h1]
        simp [h1, h2, List.mem_filter]
    · rw [if_neg h1]
      simp [h1]
  · rw [Bool.not_true, if_neg (by exact Bool.false_ne_true), maskGet_setAt,
        List.length_replicate]
    by_cases h1 : j < coords.length
    · rw [if_pos h1, maskGet_replicate, if_pos h1]
      simp [h1, List.mem_filter]
    · rw [if_neg h1]
      simp [h1]

theorem maskGet_within_big_mono (r1 r2 : ℚ) (torfIn : Mask)
    (coords : List Vec3) (hbig : ¬ (nonzero torfIn).length < 20)
    (hrr : r1 * r1 ≤ r2 * r2) (j : Nat)
    (h : maskGet (_within false r1 torfIn coords) j = true) :
    maskGet (_within false r2 torfIn coords) j = true := by
  rw [maskGet_within_big_iff _ _ _ _ hbig] at h ⊢
  obtain ⟨h1, h2⟩ := h
  refine ⟨h1, ?_⟩
  rcases h2 with h2 | ⟨hc, he⟩
  · exact Or.inl h2
  · exact Or.inr ⟨hc, kdHits_nonempty_mono _ _ _ _ hrr he⟩

/-! ## The claims -/

/-- C1: for every dataset with N entities, evaluating the selection string
`all` returns the all-true boolean mask of length N and `none` the all-false
mask of length N (the fast path of `getBoolArray`; neither word can be
shadowed by a macro since macro names may not collide with reserved words,
and the keyword arguments must pass validation). -/
theorem allNoneSelectionMasks (isReserved : String → Bool)
    (macros : MacroTable) (atoms : Atomic) (kwargs : List (String × KwArg))
    (hall : macros.any (fun kv => kv.1 == "all") = false)
    (hnone : macros.any (fun kv => kv.1 == "none") = false)
    (hka : kwargsCheck isReserved kwargs "all" = none)
    (hkn : kwargsCheck isReserved kwargs "none" = none) :
    getBoolArrayWord isReserved macros atoms kwargs "all"
      = .ok (List.replicate atoms.numAtoms true)
  ∧ getBoolArrayWord isReserved macros atoms kwargs "none"
      = .ok (List.replicate atoms.numAtoms false) := by
  constructor
  · simp only [getBoolArrayWord, hka]
    rw [if_pos ⟨by decide, by decide, hall⟩, if_neg (by decide),
        if_pos (by decide : pyStrip "all" = "all")]
  · simp only [getBoolArrayWord, hkn]
    rw [if_pos ⟨by decide, by decide, hnone⟩,
        if_pos (by decide : pyStrip "none" = "none")]

/-- Witness for C1 at a concrete dataset, macro table and empty keyword
arguments. -/
theorem allNoneSelectionMasksWitness :
    (([("water", "resname HOH")] : MacroTable).any
        (fun kv => kv.1 == "all") = false)
  ∧ getBoolArrayWord (fun _ => false) [("water", "resname HOH")] Dex []
        "all" = .ok (List.replicate Dex.numAtoms true)
  ∧ getBoolArrayWord (fun _ => false) [("water", "resname HOH")] Dex []
        "none" = .ok (List.replicate Dex.numAtoms false) :=
  ⟨rfl,
   (allNoneSelectionMasks (fun _ => false) [("water", "resname HOH")] Dex []
      rfl rfl rfl rfl).1,
   (allNoneSelectionMasks (fun _ => false) [("water", "resname HOH")] Dex []
      rfl rfl rfl rfl).2⟩

/-- C4: `defSelectionMacro` raises an invalid-name `ValueError` when the name
is reserved or not all-lowercase-alphabetic; with a valid name, a
`SelectionError` raised by the trial evaluation of the body is swallowed into
a warning and the macro is not registered — the registry is unchanged and no
error propagates to the caller. -/
theorem macroDefinitionContract (isReserved : String → Bool)
    (trialSelect : String → Except SelErr Unit) (macros : MacroTable)
    (name selstr : String) :
    ((isReserved name = true ∨ pyIsAlpha name = false ∨
        pyIsLower name = false) →
      ∃ msg, defSelectionMacro isReserved trialSelect macros name selstr
        = (.valueError msg, macros))
  ∧ (∀ e, isReserved name = false → pyIsAlpha name = true →
      pyIsLower name = true → trialSelect selstr = .error e →
      defSelectionMacro isReserved trialSelect macros name selstr
        = (.notRegistered, macros)) := by
  constructor
  · intro h
    cases hr : isReserved name
    · have hv : (pyIsAlpha name && pyIsLower name) = false := by
        rcases h with h | h | h
        · rw [hr] at h
          exact absurd h (by simp)
        · simp [h]
        · simp [h]
      refine ⟨"macro names must be all lower case letters", ?_⟩
      simp [ defSelectionMacro, hr, hv]
    · refine ⟨"is a reserved word and cannot be used as a macro name", ?_⟩
      simp [ defSelectionMacro, hr]
  · intro e hr ha hl ht
    simp [ defSelectionMacro, hr, ha, hl, ht]

/-- Witness for C4: an invalid (mixed-case) name is rejected, and a valid
name whose body fails the trial evaluation is silently not registered. -/
theorem macroDefinitionContractWitness :
    pyIsLower "CBeta" = false
  ∧ (∃ msg, defSelectionMacro (fun w => w == "all")
        (fun _ => .error (.sel "invalid")) [] "CBeta" "name CB"
      = (.valueError msg, []))
  ∧ defSelectionMacro (fun w => w == "all")
        (fun _ => .error (.sel "invalid")) [] "cbeta" "bogus &"
      = (.notRegistered, []) :=
  ⟨rfl,
   (macroDefinitionContract (fun w => w == "all")
      (fun _ => .error (.sel "invalid")) [] "CBeta" "name CB").1
     (Or.inr (Or.inr rfl)),
   (macroDefinitionContract (fun w => w == "all")
      (fun _ => .error (.sel "invalid")) [] "cbeta" "bogus &").2
     (.sel "invalid") rfl rfl rfl rfl⟩

/-- C7: for a fixed mask query set and radii `r1 ≤ r2` (with `r1`
nonnegative, as the grammar guarantees), every atom selected by
`within r1 of S` is selected by `within r2 of S`; the proof covers both
spatial strategies, whose choice depends only on the query set. -/
theorem withinRadiusMonotone (r1 r2 : ℚ) (torfIn : Mask)
    (coords : List Vec3) (h0 : 0 ≤ r1) (h12 : r1 ≤ r2) (j : Nat)
    (hj : maskGet (_within false r1 torfIn coords) j = true) :
    maskGet (_within false r2 torfIn coords) j = true := by
  have hrr : r1 * r1 ≤ r2 * r2 := mul_self_le_mul_self h0 h12
  by_cases hsmall : (nonzero torfIn).length < 20
  · rw [maskGet_within_small _ _ _ hsmall] at hj ⊢
    rw [List.any_eq_true] at hj ⊢
    obtain ⟨i, hi, hdec⟩ := hj
    rw [decide_eq_true_eq] at hdec
    exact ⟨i, hi, decide_eq_true (kdHits_subset _ _ _ _ hrr hdec)⟩
  · exact maskGet_within_big_mono r1 r2 torfIn coords hsmall hrr j hj

/-- Witness for C7 at radii 1 ≤ 2: an atom selected by the smaller radius
is selected by the larger one. -/
theorem withinRadiusMonotoneWitness :
    (0 : ℚ) ≤ 1 ∧ (1 : ℚ) ≤ 2
  ∧ maskGet (_within false 2 [true] [(0, 0, 0)]) 0 = true :=
  ⟨by simp, by norm_num,
   withinRadiusMonotone 1 2 [true] [(0, 0, 0)] (by simp) (by norm_num) 0
     (by
       rw [maskGet_within_small _ _ _ (by decide), List.any_eq_true]
       refine ⟨0, by decide, decide_eq_true ?_⟩
       rw [mem_kdHits]
       refine ⟨by decide, ?_⟩
       rw [dist2_self]
       simp)⟩

/-- C8: for a mask query set S over the dataset coordinates, `exwithin r of
S` never contains a member of S, while `within r of S` retains every member
of S; both spatial strategies are covered. -/
theorem exwithinExcludesQuerySet (r : ℚ) (torfIn : Mask)
    (coords : List Vec3) (hlen : torfIn.length = coords.length) :
    (∀ j, maskGet torfIn j = true →
        maskGet (_within true r torfIn coords) j = false)
  ∧ (∀ j, maskGet torfIn j = true →
        maskGet (_within false r torfIn coords) j = true) := by
  constructor
  · intro j hj
    have hwhich : j ∈ nonzero torfIn :=
      (mem_nonzero _ _).2 ⟨lt_length_of_maskGet _ _ hj, hj⟩
    by_cases hsmall : (nonzero torfIn).length < 20
    · exact maskGet_within_small_ex _ _ _ hsmall _ hwhich
    · cases hv : maskGet (_within true r torfIn coords) j
      · rfl
      · exfalso
        rcases (maskGet_within_big_iff true r torfIn coords hsmall j).1 hv
          with ⟨-, h | ⟨hc, -⟩⟩
        · exact absurd h.1 (by simp)
        · exact ((mem_within_check _ _ _).1 hc).2 hwhich
  · intro j hj
    have hwhich : j ∈ nonzero torfIn :=
      (mem_nonzero _ _).2 ⟨lt_length_of_maskGet _ _ hj, hj⟩
    have hn : j < coords.length := by
      have := lt_length_of_maskGet _ _ hj
      omega
    by_cases hsmall : (nonzero torfIn).length < 20
    · rw [maskGet_within_small _ _ _ hsmall, List.any_eq_true]
      refine ⟨j, hwhich, decide_eq_true ?_⟩
      rw [mem_kdHits]
      exact ⟨hn, by rw [dist2_self]; exact mul_self_nonneg r⟩
    · rw [maskGet_within_big_iff _ _ _ _ hsmall]
      exact ⟨hn, Or.inl ⟨rfl, hwhich⟩⟩

/-- Witness for C8 on a two-atom dataset: the query atom is dropped by
`exwithin` and kept by `within`. -/
theorem exwithinExcludesQuerySetWitness :
    ([true, false] : Mask).length = ([(0, 0, 0), (0, 0, 1)] : List Vec3).length
  ∧ maskGet (_within true 1 [true, false] [(0, 0, 0), (0, 0, 1)]) 0 = false
  ∧ maskGet (_within false 1 [true, false] [(0, 0, 0), (0, 0, 1)]) 0
      = true :=
  ⟨rfl,
   (exwithinExcludesQuerySet 1 [true, false] [(0, 0, 0), (0, 0, 1)] rfl).1
     0 rfl,
   (exwithinExcludesQuerySet 1 [true, false] [(0, 0, 0), (0, 0, 1)] rfl).2
     0 rfl⟩

/-- C9: with no bond map set, a `bonded to <term>` or `exbonded to <term>`
construct (implicit single hop, `label[1] == 'to'`) aborts with the hard
semantic error naming unset bonds, whatever the argument mask. -/
theorem bondedToRequiresBonds (atoms : Atomic) (label : List String)
    (torf : Mask) (hb : atoms.bmap = none) (hto : label.getD 1 "" = "to") :
    _bondedto atoms label torf = .error (.sel "bonds are not set") := by
  simp only [_bondedto]
  rw [if_pos hto]
  simp [bondedCore, hb]

/-- Witness for C9: both `bonded to` and `exbonded to` error out on a
dataset without bonds. -/
theorem bondedToRequiresBondsWitness :
    Dex.bmap = none
  ∧ _bondedto Dex ["bonded", "to"] [true, false, false, false]
      = .error (.sel "bonds are not set")
  ∧ _bondedto Dex ["exbonded", "to"] [false, true, false, false]
      = .error (.sel "bonds are not set") :=
  ⟨rfl,
   bondedToRequiresBonds Dex ["bonded", "to"] [true, false, false, false]
     rfl rfl,
   bondedToRequiresBonds Dex ["exbonded", "to"] [false, true, false, false]
     rfl rfl⟩

/-- C10: when an error-free evaluation produces an all-false mask,
`getIndices` returns the empty index sequence while `select` returns `None`
rather than an empty selection object. -/
theorem emptySelectionReturnsNone (torf : Mask)
    (h : ∀ j, maskGet torf j = false) :
    getIndices torf = [] ∧ select torf = .noneReturn := by
  have hz : nonzero torf = [] := by
    rw [nonzero, List.filter_eq_nil_iff]
    intro a _
    rw [h a]
    exact Bool.false_ne_true
  refine ⟨hz, ?_⟩
  simp [select, getIndices, hz]

/-- Witness for C10 on a concrete all-false mask. -/
theorem emptySelectionReturnsNoneWitness :
    maskGet [false, false, false] 2 = false
  ∧ getIndices [false, false, false] = []
  ∧ select [false, false, false] = .noneReturn :=
  have hall : ∀ j, maskGet [false, false, false] j = false := fun j => by
    rcases j with _ | _ | _ | j <;> rfl
  ⟨hall 2, (emptySelectionReturnsNone _ hall).1,
   (emptySelectionReturnsNone _ hall).2⟩

theorem pairTokens_cons (p : String × NTok) (ps : List (String × NTok)) :
    pairTokens (p :: ps)
      = .op p.1 :: .operand p.2 :: pairTokens ps := by
  simp [pairTokens]

theorem pairTokens_length (ps : List (String × NTok)) :
    (pairTokens ps).length = 2 * ps.length := by
  induction ps with
  | nil => rfl
  | cons p ps ih =>
    rw [pairTokens_cons]
    simp only [List.length_cons, ih]
    omega

theorem arith_ops_ok (o : String) (ho : o ∈ ["*", "/", "%", "+", "-"]) :
    OPERATORS.contains o = true ∧ (applyArith o).isSome = true := by
  fin_cases ho <;> exact ⟨rfl, rfl⟩

/-- Inside the `Select._binop` loop, a division whose resolved right operand
contains a zero turns the whole chain into the zero-division error, whatever
the accumulated left value. -/
theorem binopLoop_zero (atoms : Atomic) :
    ∀ (ps : List (String × NTok)) (left : NumVal),
      (∀ p ∈ ps, p.1 ∈ ["*", "/", "%", "+", "-"]) →
      (∀ p ∈ ps, ∃ v, _getNumeric atoms p.2 = .ok v) →
      (∃ p ∈ ps, p.1 = "/" ∧ ∃ v, _getNumeric atoms p.2 = .ok v ∧
          hasZero v = true) →
      _binopLoop atoms left (pairTokens ps)
        = .error (.sel "zero division error") := by
  intro ps
  induction ps with
  | nil =>
    intro left _ _ hdiv
    simp at hdiv
  | cons p ps ih =>
    intro left hops hres hdiv
    rw [pairTokens_cons]
    obtain ⟨v, hv⟩ := hres p (List.mem_cons_self _ _)
    obtain ⟨hcont, happ⟩ := arith_ops_ok p.1 (hops p (List.mem_cons_self _ _))
    simp only [_binopLoop]
    rw [if_pos hcont, hv]
    dsimp only
    by_cases hz : p.1 = "/" ∧ hasZero v = true
    · rw [if_pos hz]
    · rw [if_neg hz]
      obtain ⟨f, hf⟩ := Option.isSome_iff_exists.1 happ
      rw [hf]
      rcases hdiv with ⟨q, hq, hq1, w, hw, hwz⟩
      rcases List.mem_cons.1 hq with rfl | hq2
      · exfalso
        rw [hv] at hw
        injection hw with hw
        exact hz ⟨hq1, hw ▸ hwz⟩
      · exact ih (liftOp f left v)
          (fun p2 hp2 => hops p2 (List.mem_cons_of_mem _ hp2))
          (fun p2 hp2 => hres p2 (List.mem_cons_of_mem _ hp2))
          ⟨q, hq2, hq1, w, hw, hwz⟩

/-- C5: a well-formed left-associative arithmetic chain whose operands all
resolve numerically and which contains a division with a zero anywhere in
its (resolved) right operand evaluates, in `Select._binop`, to the hard
zero-division selection error, regardless of the other operands' values. -/
theorem divisionByZeroHardError (atoms : Atomic) (t0 : NTok) (v0 : NumVal)
    (ps : List (String × NTok))
    (h0 : _getNumeric atoms t0 = .ok v0)
    (hops : ∀ p ∈ ps, p.1 ∈ ["*", "/", "%", "+", "-"])
    (hres : ∀ p ∈ ps, ∃ v, _getNumeric atoms p.2 = .ok v)
    (hdiv : ∃ p ∈ ps, p.1 = "/" ∧ ∃ v, _getNumeric atoms p.2 = .ok v ∧
        hasZero v = true) :
    _binop atoms (.operand t0 :: pairTokens ps)
      = .error (.sel "zero division error") := by
  simp only [_binop, List.length_cons, pairTokens_length]
  rw [if_neg (by omega), h0]
  exact binopLoop_zero atoms ps v0 hops hres hdiv

/-- Witness for C5: the selection fragment `x / 0` on a dataset with
coordinates set. -/
theorem divisionByZeroHardErrorWitness :
    _getNumeric Dxz (.word "x") = .ok (.arr [1, 2])
  ∧ _binop Dxz (.operand (.word "x") :: pairTokens [("/", .word "0")])
      = .error (.sel "zero division error") :=
  ⟨rfl,
   divisionByZeroHardError Dxz (.word "x") (.arr [1, 2])
     [("/", .word "0")] rfl (by decide)
     (fun p hp => by
       rw [List.mem_singleton] at hp
       subst hp
       exact ⟨.scalar 0, by with_unfolding_all rfl⟩)
     ⟨("/", .word "0"), by decide, rfl, .scalar 0,
      by with_unfolding_all rfl, by with_unfolding_all rfl⟩⟩

/-- C6: the function table of `select.py` registers the hyperbolic tangent
under the misspelled key `tahn`: `tanh` is not a key of `FUNCTIONS`, hence
not among the function keywords the parser is assembled from, even though
the module documentation tabulates `tanh(x)`; the sixteen other documented
names are present, and `_func` enforces exactly one numeric argument. -/
theorem tanhFunctionKeyTypo :
    FUNCTIONS.lookup "tanh" = none
  ∧ FUNCTIONS.lookup "tahn" = some FuncKind.tanh
  ∧ funcnames = ["sqrt", "sq", "abs", "floor", "ceil", "sin", "cos", "tan",
      "asin", "acos", "atan", "sinh", "cosh", "tahn", "exp", "log",
      "log10"]
  ∧ _func Dex [.numArr [4], .numArr [2]] "sqrt"
      = .error (.sel "accepts a single numeric argument")
  ∧ _func Dex [.numArr [4]] "sqrt" = .ok (FuncKind.sqrt, .arr [4]) :=
  ⟨rfl, rfl, rfl, rfl, rfl⟩

/-- C2: `Select._index` builds its mask over the full AtomGroup and, because
the view re-indexing reads the nonexistent attribute `_atoms_getIndices`
(a typo for `_atoms._getIndices()`, so the AttributeError branch always
fires), never restricts it to the active view: on a three-atom view of a
five-atom AtomGroup, `index 2` yields a mask of length 5 instead of
N = 3, violating the stated length-N invariant (`_serial` ends with the
same misspelled attribute access). -/
theorem indexMaskLengthBug :
    _index Dview [.numTok "2"] none
      = .ok [false, false, true, false, false]
  ∧ Dview.numAtoms = 3
  ∧ ([false, false, true, false, false] : Mask).length ≠ Dview.numAtoms :=
  ⟨by with_unfolding_all rfl, rfl, by decide⟩

/-- C3: `evalMacros` does expand a registered macro name into its
parenthesized body, but no evaluation path calls it — `getBoolArray` hands
the raw selection string to the parser, and its single-word fast path
explicitly steps aside for macro names — so after registering
`cbeta = name CB and protein`, the selection `cbeta` aborts with
`could not be evaluated` instead of producing the mask of
`name CB and protein`. -/
theorem macroExpansionUnusedBug :
    evalMacros [("cbeta", "name CB and protein")] "cbeta"
      = "(name CB and protein)"
  ∧ getBoolArrayWord (fun _ => false) [("cbeta", "name CB and protein")]
      Dex [] "cbeta" = .error (.sel "could not be evaluated") :=
  ⟨rfl, by with_unfolding_all rfl⟩

end ProdySel
